import Mathlib

set_option maxRecDepth 1000000

/-!
Verification of the retrieval-grounding pipeline of the Multi-Document RAG
repository: the text chunker (`src/rag/chunker.py`), the retrieval adapter
(`src/rag/retriever.py`) and the answer validator
(`src/rag/answer_generator.py`), shallowly embedded in Lean.

Modelling conventions:
* Python strings are `String` (or `List Char` where index arithmetic
  matters); all inputs of interest are ASCII.
* Python integers are `Int`; chunk indexes (which start at 0 and are only
  incremented) are `Nat`.
* JSON values are an inductive type; `json.loads` and the fenced-code-block
  extraction that precedes it are treated as the boundary to the Python
  `json` library, so the validator takes the outcome of that step as input.
* Exceptions raised dynamically by the embedded code are modelled with
  `Except PyErr`; the two external collaborators (similarity index and
  generation service) are explicit inputs.
* The chunking `while` loop of `TextChunker._chunk_text` can genuinely run
  forever, so it is embedded with a fuel parameter; exhausting the fuel is
  the `diverged` outcome.
-/

namespace Rag

/-- Python exceptions that the embedded code can raise dynamically. -/
inductive PyErr where
  | attributeError
  | typeError
  | indexError
  | runtimeError
  deriving DecidableEq, Repr

/-- JSON values as produced by `json.loads`.  Numbers are modelled as
rationals; no arithmetic is ever performed on them, they are only stored
and compared. -/
inductive Json where
  | null
  | bool (b : Bool)
  | num (q : Rat)
  | str (s : String)
  | arr (elems : List Json)
  | obj (fields : List (String × Json))

/-- Python `parsed.get(key, default)`: on a dict, look the key up
(`json.loads` keeps the last value for a duplicated key, hence the
reversed lookup); on any other JSON value the `.get` attribute does not
exist and an `AttributeError` is raised. -/
def json_get : Json → String → Json → Except PyErr Json
  | .obj fields, key, dflt => .ok ((fields.reverse.lookup key).getD dflt)
  | _, _, _ => .error .attributeError

/-- Helper for Python dict-key iteration: keep the first occurrence of
each key, in order. -/
def dedup_first_aux (seen : List String) : List String → List String
  | [] => []
  | x :: xs =>
    if x ∈ seen then dedup_first_aux seen xs
    else x :: dedup_first_aux (x :: seen) xs

/-- Keys of a Python dict in first-insertion order. -/
def dedup_first (l : List String) : List String := dedup_first_aux [] l

/-- Python iteration over a JSON value (`for source in raw_sources`):
lists yield their elements, strings their one-character substrings, dicts
their keys; numbers, booleans and `None` are not iterable and raise a
`TypeError`. -/
def py_iter : Json → Except PyErr (List Json)
  | .arr xs => .ok xs
  | .str s => .ok (s.toList.map fun c => Json.str (String.mk [c]))
  | .obj fields => .ok ((dedup_first (fields.map Prod.fst)).map Json.str)
  | _ => .error .typeError

/-- Python equality between a JSON value and a `str`: only an equal string
compares equal; no other JSON value ever equals a string. -/
def py_eq_str (j : Json) (s : String) : Bool :=
  match j with
  | .str t => t == s
  | _ => false

/-- A retrieved chunk (`Retriever.RetrievedChunk` dataclass).  The
similarity score is a float in the source; it is carried around opaquely,
so it is modelled as a rational. -/
structure RetrievedChunk where
  document_name : String
  page_number : Int
  chunk_id : String
  text : String
  score : Rat
  is_section : Bool
  deriving DecidableEq, Repr

end Rag

namespace Rag

/-! ## Retrieval adapter (`Retriever.retrieve`, normalization loop) -/

/-- Metadata sub-record of one search-result record; every field may be
absent. -/
structure ResultMetadata where
  document_name : Option String
  page_number : Option Int
  is_section : Option Bool
  deriving DecidableEq, Repr

/-- One heterogeneous result record handed back by the similarity index
(`vector_store.search` output shape); every field may be absent. -/
structure SearchResult where
  chunk_id : Option String
  text : Option String
  metadata : Option ResultMetadata
  distance : Option Rat
  deriving DecidableEq, Repr

/-- The empty dict used as default by `result.get("metadata", {})`. -/
def empty_metadata : ResultMetadata := ⟨none, none, none⟩

/-- Body of the normalization loop of `Retriever.retrieve`
(`retriever.py` lines 105-114): absent fields become explicit defaults. -/
def normalize_result (r : SearchResult) : RetrievedChunk :=
  let md := r.metadata.getD empty_metadata
  { document_name := md.document_name.getD "unknown"
    page_number := md.page_number.getD 0
    chunk_id := r.chunk_id.getD "unknown"
    text := r.text.getD ""
    score := r.distance.getD 1
    is_section := md.is_section.getD false }

/-- `Retriever.retrieve` after the external similarity search returned its
result records: normalize each record, keeping the index-supplied order. -/
def retrieve (results : List SearchResult) : List RetrievedChunk :=
  results.map normalize_result

/-! ## Answer validator (`AnswerGenerator`) -/

/-- The fixed refusal string (`AnswerGenerator.NO_INFO_RESPONSE`). -/
def NO_INFO_RESPONSE : String :=
  "The provided documents do not contain this information."

/-- The `SourceReference` dataclass.  Python does not enforce the dataclass
annotations, so `document_name`, `page` and `chunk_id` hold whatever JSON
values `_parse_response` read from the completion payload; `is_section` is
a genuine boolean taken from the chunk-section map. -/
structure SourceReference where
  document_name : Json
  page : Json
  chunk_id : Json
  is_section : Bool

/-- The `AnswerResponse` dataclass. -/
structure AnswerResponse where
  answer : Json
  sources : List SourceReference

/-- The membership test `chunk_id in valid_chunk_ids`, where
`valid_chunk_ids` is the set of retrieved chunk ids (Python strings): an
unhashable JSON value (list or dict) makes the `in` test raise
`TypeError`; any other value is compared against the retrieved ids. -/
def chunk_id_in_retrieved (retrieved : List RetrievedChunk) : Json → Except PyErr Bool
  | .arr _ => .error .typeError
  | .obj _ => .error .typeError
  | cid => .ok (retrieved.any fun c => py_eq_str cid c.chunk_id)

/-- Lookup in `chunk_section_map` with default `False`.  The dict
comprehension `{chunk.chunk_id: chunk.is_section for chunk in
retrieved_chunks}` keeps the entry of the last chunk with a given id,
hence the reversed search. -/
def section_lookup (retrieved : List RetrievedChunk) : Json → Bool
  | .str s =>
    ((retrieved.reverse.find? fun c => c.chunk_id == s).map
      RetrievedChunk.is_section).getD false
  | _ => false

/-- The source-validation loop of `AnswerGenerator._parse_response`
(lines 320-332): for each payload source object, read its `chunk_id`
(default `""`), test membership in the retrieved ids, and if present
append a `SourceReference` whose `document_name` (default `"unknown"`)
and `page` (default `0`) come from the payload and whose `is_section`
comes from the chunk-section map.  Sources with an unknown id are
dropped. -/
def process_sources (retrieved : List RetrievedChunk) :
    List Json → Except PyErr (List SourceReference)
  | [] => .ok []
  | src :: rest =>
    match json_get src "chunk_id" (Json.str "") with
    | .error e => .error e
    | .ok cid =>
      match chunk_id_in_retrieved retrieved cid with
      | .error e => .error e
      | .ok true =>
        match json_get src "document_name" (Json.str "unknown") with
        | .error e => .error e
        | .ok dn =>
          match json_get src "page" (Json.num 0) with
          | .error e => .error e
          | .ok pg =>
            match process_sources retrieved rest with
            | .error e => .error e
            | .ok tail =>
              .ok (⟨dn, pg, cid, section_lookup retrieved cid⟩ :: tail)
      | .ok false => process_sources retrieved rest

/-- Outcome of the JSON-extraction step (stripping an optional fenced code
block, then `json.loads`): either a `json.JSONDecodeError` or a parsed
JSON value.  This is the boundary to the Python `json` library. -/
inductive ParseOutcome where
  | decodeError
  | ok (parsed : Json)

/-- `AnswerGenerator._parse_response` (lines 291-351): on a JSON decode
error return the fixed refusal response (the only caught exception is
`json.JSONDecodeError`); on success read `answer` (defaulting to the
refusal string) and `sources` (defaulting to `[]`) with Python `.get`,
iterate the sources and run the validation loop.  Any dynamically raised
exception propagates. -/
def parse_response (outcome : ParseOutcome) (retrieved : List RetrievedChunk) :
    Except PyErr AnswerResponse :=
  match outcome with
  | .decodeError => .ok ⟨Json.str NO_INFO_RESPONSE, []⟩
  | .ok parsed =>
    match json_get parsed "answer" (Json.str NO_INFO_RESPONSE) with
    | .error e => .error e
    | .ok answer =>
      match json_get parsed "sources" (Json.arr []) with
      | .error e => .error e
      | .ok rawSources =>
        match py_iter rawSources with
        | .error e => .error e
        | .ok items =>
          match process_sources retrieved items with
          | .error e => .error e
          | .ok sources => .ok ⟨answer, sources⟩

/-- Result of `AnswerGenerator.generate`, paired with a flag recording
whether the external generation service was invoked. -/
structure GenerateResult where
  response : AnswerResponse
  llm_called : Bool

/-- `AnswerGenerator.generate` (lines 173-229): raise if the client is not
configured; return the refusal response without calling the service when
no chunks were retrieved; otherwise call the service (its completion is
the `completion` input) and parse the result.  Exceptions raised while
parsing are re-raised unchanged. -/
def generate (client_configured : Bool) (question : String)
    (retrieved : List RetrievedChunk) (completion : ParseOutcome) :
    Except PyErr GenerateResult :=
  if !client_configured then .error .runtimeError
  else if retrieved.isEmpty then
    .ok ⟨⟨Json.str NO_INFO_RESPONSE, []⟩, false⟩
  else (parse_response completion retrieved).map fun r => ⟨r, true⟩

end Rag

namespace Rag

/-! ## Python string primitives used by the chunker

The chunker does index arithmetic on strings, so here Python strings are
`List Char`.  Slicing, indexing and `rfind` follow Python semantics,
including negative indices (the chunking loop genuinely reaches negative
`start` values, see the divergence theorems below). -/

/-- Python whitespace characters stripped by `str.strip()` (ASCII part). -/
def is_py_space (c : Char) : Bool :=
  c == ' ' || c == '\t' || c == '\n' || c == '\r' || c == '\x0b' || c == '\x0c'

/-- Python `str.strip()`. -/
def py_strip (l : List Char) : List Char :=
  ((l.dropWhile is_py_space).reverse.dropWhile is_py_space).reverse

/-- Normalize a Python slice index: negative indices count from the end,
then the index is clamped into `[0, n]`. -/
def norm_idx (i : Int) (n : Nat) : Nat :=
  if i < 0 then (i + n).toNat else min i.toNat n

/-- Python slice `l[a:b]` (step 1). -/
def py_slice (l : List Char) (a b : Int) : List Char :=
  (l.drop (norm_idx a l.length)).take (norm_idx b l.length - norm_idx a l.length)

/-- Python indexing `l[i]`: negative indices wrap once; out-of-range
indexing raises `IndexError` (modelled as `none`). -/
def py_char_at (l : List Char) (i : Int) : Option Char :=
  if 0 ≤ i then l[i.toNat]?
  else if -(l.length : Int) ≤ i then l[(i + l.length).toNat]?
  else none

/-- Python `l.rfind(sub, a, b)`: highest index `i` with `a ≤ i` and
`i + len(sub) ≤ b` (after slice-style normalization of `a` and `b`) at
which `sub` occurs, or `-1`. -/
def py_rfind (l sub : List Char) (a b : Int) : Int :=
  let a2 := norm_idx a l.length
  let b2 := norm_idx b l.length
  let m := sub.length
  (List.range (b2 + 1)).foldl
    (fun acc i =>
      if a2 ≤ i ∧ i + m ≤ b2 ∧ sub.isPrefixOf (l.drop i) then (i : Int) else acc)
    (-1)

/-! ## Decimal rendering (Python f-string of an integer) -/

/-- One decimal digit. -/
def digit_char : Nat → Char
  | 0 => '0' | 1 => '1' | 2 => '2' | 3 => '3' | 4 => '4'
  | 5 => '5' | 6 => '6' | 7 => '7' | 8 => '8' | 9 => '9' | _ => '*'

/-- Digits of a positive natural, most significant first; the fuel is an
upper bound on the number of divisions and `n` itself always suffices. -/
def nat_digits_aux : Nat → Nat → List Char
  | 0, _ => []
  | fuel+1, n =>
    if n = 0 then [] else nat_digits_aux fuel (n / 10) ++ [digit_char (n % 10)]

/-- Decimal rendering of a natural number. -/
def nat_to_digits (n : Nat) : List Char :=
  if n = 0 then ['0'] else nat_digits_aux n n

/-- Decimal rendering of a Python integer (f-string). -/
def int_to_digits (p : Int) : List Char :=
  if p < 0 then '-' :: nat_to_digits (-p).toNat else nat_to_digits p.toNat

/-! ## MD5 (`hashlib.md5`), on naturals mod 2^32 -/

/-- Truncate to 32 bits. -/
def u32 (n : Nat) : Nat := n % 4294967296

/-- 32-bit addition. -/
def add32 (a b : Nat) : Nat := u32 (a + b)

/-- 32-bit complement (valid for `x < 2^32`). -/
def not32 (x : Nat) : Nat := 4294967295 - x

/-- 32-bit left rotation (valid for `x < 2^32`, `s ≤ 32`). -/
def rotl32 (x s : Nat) : Nat := x % 2 ^ (32 - s) * 2 ^ s + x / 2 ^ (32 - s)

/-- MD5 round function F. -/
def md5F (b c d : Nat) : Nat := Nat.lor (Nat.land b c) (Nat.land (not32 b) d)

/-- MD5 round function G. -/
def md5G (b c d : Nat) : Nat := Nat.lor (Nat.land d b) (Nat.land (not32 d) c)

/-- MD5 round function H. -/
def md5H (b c d : Nat) : Nat := Nat.xor (Nat.xor b c) d

/-- MD5 round function I. -/
def md5I (b c d : Nat) : Nat := Nat.xor c (Nat.lor b (not32 d))

/-- MD5 sine-derived constants. -/
def md5K : List Nat :=
  [3614090360, 3905402710, 606105819, 3250441966, 4118548399, 1200080426,
   2821735955, 4249261313, 1770035416, 2336552879, 4294925233, 2304563134,
   1804603682, 4254626195, 2792965006, 1236535329, 4129170786, 3225465664,
   643717713, 3921069994, 3593408605, 38016083, 3634488961, 3889429448,
   568446438, 3275163606, 4107603335, 1163531501, 2850285829, 4243563512,
   1735328473, 2368359562, 4294588738, 2272392833, 1839030562, 4259657740,
   2763975236, 1272893353, 4139469664, 3200236656, 681279174, 3936430074,
   3572445317, 76029189, 3654602809, 3873151461, 530742520, 3299628645,
   4096336452, 1126891415, 2878612391, 4237533241, 1700485571, 2399980690,
   4293915773, 2240044497, 1873313359, 4264355552, 2734768916, 1309151649,
   4149444226, 3174756917, 718787259, 3951481745]

/-- MD5 per-round shift amounts. -/
def md5S : List Nat :=
  [7,12,17,22,7,12,17,22,7,12,17,22,7,12,17,22,
   5,9,14,20,5,9,14,20,5,9,14,20,5,9,14,20,
   4,11,16,23,4,11,16,23,4,11,16,23,4,11,16,23,
   6,10,15,21,6,10,15,21,6,10,15,21,6,10,15,21]

/-- MD5 working state. -/
structure MD5State where
  a : Nat
  b : Nat
  c : Nat
  d : Nat
  deriving DecidableEq, Repr

/-- One MD5 round. -/
def md5_round (m : Nat → Nat) (st : MD5State) (i : Nat) : MD5State :=
  let fg : Nat × Nat :=
    if i < 16 then (md5F st.b st.c st.d, i)
    else if i < 32 then (md5G st.b st.c st.d, (5*i + 1) % 16)
    else if i < 48 then (md5H st.b st.c st.d, (3*i + 5) % 16)
    else (md5I st.b st.c st.d, 7*i % 16)
  let tmp := add32 (add32 (add32 st.a fg.1) (md5K.getD i 0)) (m fg.2)
  ⟨st.d, add32 st.b (rotl32 tmp (md5S.getD i 0)), st.b, st.c⟩

/-- Little-endian 32-bit word `g` of a 64-byte block. -/
def md5_word (block : List Nat) (g : Nat) : Nat :=
  block.getD (4*g) 0 + 256 * block.getD (4*g+1) 0 +
    65536 * block.getD (4*g+2) 0 + 16777216 * block.getD (4*g+3) 0

/-- Process one 64-byte block. -/
def md5_process_block (st : MD5State) (block : List Nat) : MD5State :=
  let r := (List.range 64).foldl (md5_round (md5_word block)) st
  ⟨add32 st.a r.a, add32 st.b r.b, add32 st.c r.c, add32 st.d r.d⟩

/-- UTF-8 encoding of one character. -/
def utf8_encode_char (c : Char) : List Nat :=
  let n := c.toNat
  if n < 128 then [n]
  else if n < 2048 then [192 + n / 64, 128 + n % 64]
  else if n < 65536 then [224 + n / 4096, 128 + n / 64 % 64, 128 + n % 64]
  else [240 + n / 262144, 128 + n / 4096 % 64, 128 + n / 64 % 64, 128 + n % 64]

/-- UTF-8 bytes of a string (`str.encode()`). -/
def utf8_bytes (s : String) : List Nat := (s.toList.map utf8_encode_char).flatten

/-- Little-endian 8-byte rendering of the 64-bit message bit length. -/
def le_bytes8 (n : Nat) : List Nat :=
  [n % 256, n / 256 % 256, n / 65536 % 256, n / 16777216 % 256,
   n / 4294967296 % 256, n / 1099511627776 % 256,
   n / 281474976710656 % 256, n / 72057594037927936 % 256]

/-- MD5 padding: `0x80`, zeros to 56 mod 64, then the bit length. -/
def md5_pad (msg : List Nat) : List Nat :=
  let len := msg.length
  let padlen := (119 - len % 64) % 64
  msg ++ 128 :: List.replicate padlen 0 ++ le_bytes8 (8 * len % 18446744073709551616)

/-- Split into 64-byte blocks; the fuel (the list length suffices) keeps
the recursion structural so that it evaluates in the kernel. -/
def to_blocks_aux : Nat → List Nat → List (List Nat)
  | 0, _ => []
  | _, [] => []
  | fuel+1, l => l.take 64 :: to_blocks_aux fuel (l.drop 64)

/-- Split a padded message into 64-byte blocks. -/
def to_blocks (l : List Nat) : List (List Nat) := to_blocks_aux l.length l

/-- Lowercase hex digit. -/
def hex_digit_char (n : Nat) : Char :=
  match n with
  | 10 => 'a' | 11 => 'b' | 12 => 'c' | 13 => 'd' | 14 => 'e' | 15 => 'f'
  | k => digit_char k

/-- Two hex characters of a byte. -/
def byte_hex (b : Nat) : List Char := [hex_digit_char (b / 16), hex_digit_char (b % 16)]

/-- Hex characters of a byte list. -/
def bytes_hex : List Nat → List Char
  | [] => []
  | b :: rest => byte_hex b ++ bytes_hex rest

/-- MD5 initial state. -/
def md5_init : MD5State := ⟨1732584193, 4023233417, 2562383102, 271733878⟩

/-- Little-endian 4-byte rendering of a 32-bit word. -/
def le_bytes4 (n : Nat) : List Nat := [n % 256, n / 256 % 256, n / 65536 % 256, n / 16777216 % 256]

/-- MD5 digest bytes of a string. -/
def md5_digest_bytes (s : String) : List Nat :=
  let st := (to_blocks (md5_pad (utf8_bytes s))).foldl md5_process_block md5_init
  le_bytes4 st.a ++ le_bytes4 st.b ++ le_bytes4 st.c ++ le_bytes4 st.d

/-- `hashlib.md5(s.encode()).hexdigest()` as a character list. -/
def md5_hex_list (s : String) : List Char := bytes_hex (md5_digest_bytes s)

/-- `hashlib.md5(s.encode()).hexdigest()`. -/
def md5_hexdigest (s : String) : String := String.mk (md5_hex_list s)

end Rag

namespace Rag

set_option maxRecDepth 100000

/-- Sanity check of the MD5 embedding against a published digest. -/
theorem md5_hexdigest_abc :
    md5_hexdigest "abc" = "900150983cd24fb0d6963f7d28e17f72" := by decide

/-- Sanity check of the MD5 embedding on the empty string. -/
theorem md5_hexdigest_empty :
    md5_hexdigest "" = "d41d8cd98f00b204e9800998ecf8427e" := by decide

end Rag

namespace Rag

/-! ## Chunker (`TextChunker`) -/

/-- The `DocumentPage` dataclass (`document_loader.py`). -/
structure DocumentPage where
  document_name : String
  page_number : Int
  text : List Char
  is_section : Bool
  deriving DecidableEq, Repr

/-- The `TextChunk` dataclass. -/
structure TextChunk where
  document_name : String
  page_number : Int
  chunk_id : String
  text : List Char
  is_section : Bool
  deriving DecidableEq, Repr

/-- The chunker's configuration state (`TextChunker.__init__` stores the
two numbers; there is no further state). -/
structure TextChunker where
  chunk_size : Int
  chunk_overlap : Int
  deriving DecidableEq, Repr

/-- Default `chunk_size` from `config/settings.py`. -/
def settings_chunk_size : Int := 500

/-- Default `chunk_overlap` from `config/settings.py`. -/
def settings_chunk_overlap : Int := 50

/-- Python `arg or default`: `None` and `0` are falsy and select the
default. -/
def py_or_default (arg : Option Int) (dflt : Int) : Int :=
  match arg with
  | none => dflt
  | some n => if n = 0 then dflt else n

/-- `TextChunker.__init__` (chunker.py lines 60-79): store
`chunk_size or settings.chunk_size` and
`chunk_overlap or settings.chunk_overlap`.  No validation of any kind is
performed on the pair. -/
def TextChunker.init (chunk_size chunk_overlap : Option Int) : TextChunker :=
  ⟨py_or_default chunk_size settings_chunk_size,
   py_or_default chunk_overlap settings_chunk_overlap⟩

/-- Character list of the id prefix
`f"{document_name}_p{page_number}_c{chunk_index}"`. -/
def generate_chunk_id_core (document_name : String) (page_number : Int)
    (chunk_index : Nat) : List Char :=
  document_name.data ++ ['_', 'p'] ++ int_to_digits page_number ++
    ['_', 'c'] ++ nat_to_digits chunk_index

/-- Character list of the hashed base string
`f"{document_name}_page{page_number}_chunk{chunk_index}"`. -/
def generate_chunk_id_base (document_name : String) (page_number : Int)
    (chunk_index : Nat) : List Char :=
  document_name.data ++ ['_', 'p', 'a', 'g', 'e'] ++ int_to_digits page_number ++
    ['_', 'c', 'h', 'u', 'n', 'k'] ++ nat_to_digits chunk_index

/-- `TextChunker._generate_chunk_id` (chunker.py lines 217-238): the id is
the prefix plus `_` plus the first 8 hex characters of the MD5 digest of
the base string. -/
def generate_chunk_id (document_name : String) (page_number : Int)
    (chunk_index : Nat) : String :=
  String.mk (generate_chunk_id_core document_name page_number chunk_index ++
    '_' :: (md5_hex_list
      (String.mk (generate_chunk_id_base document_name page_number chunk_index))).take 8)

/-- The word-boundary `while` loop of `TextChunker._find_boundary`
(lines 211-215): advance `word_end` while it is inside the text and does
not point at a space, newline or tab.  The fuel is exactly the maximal
number of iterations, so the function equals the Python loop. -/
def word_scan_aux (t : List Char) : Nat → Int → Except PyErr Int
  | 0, k => .ok k
  | fuel+1, k =>
    if k < (t.length : Int) then
      match py_char_at t k with
      | none => .error .indexError
      | some c =>
        if c == ' ' || c == '\n' || c == '\t' then .ok k
        else word_scan_aux t fuel (k + 1)
    else .ok k

/-- The word-boundary scan entered at `position`. -/
def word_scan (t : List Char) (k : Int) : Except PyErr Int :=
  word_scan_aux t ((t.length : Int) - k).toNat k

/-- The six sentence-end markers of `_find_boundary`. -/
def sentence_ends : List (List Char) :=
  [['.', ' '], ['!', ' '], ['?', ' '], ['.', '\n'], ['!', '\n'], ['?', '\n']]

/-- `TextChunker._find_boundary` (lines 180-215): search a ±50-character
window around `position` for the rightmost sentence-end marker; if one is
found at a truthy (non-zero) position return it, otherwise scan forward to
the next whitespace character. -/
def find_boundary (t : List Char) (position : Int) : Except PyErr Int :=
  let search_start : Int := max 0 (position - 50)
  let search_end : Int := min (t.length : Int) (position + 50)
  let search_text := py_slice t search_start search_end
  let best_break : Option Int := sentence_ends.foldl
    (fun best marker =>
      let idx := py_rfind search_text marker 0 (position - search_start + 50)
      if idx ≠ -1 then
        let actual_pos := search_start + idx + (marker.length : Int)
        match best with
        | none => some actual_pos
        | some b => if actual_pos > b then some actual_pos else some b
      else best)
    none
  match best_break with
  | some b => if b ≠ 0 then .ok b else word_scan t position
  | none => word_scan t position

/-- Outcome of a chunking run: the `while` loop can exhaust its fuel
(`diverged`), raise (`error`) or finish with the emitted chunks. -/
inductive ChunkOutcome where
  | diverged
  | error (e : PyErr)
  | ok (chunks : List TextChunk)
  deriving DecidableEq, Repr

/-- The `while start < len(text)` loop of `TextChunker._chunk_text`
(lines 142-178): compute the candidate end, snap it to a boundary when the
candidate is strictly inside the text and the boundary lies after `start`,
emit the stripped slice if non-empty, advance `start = end - overlap` and
break once `start ≥ len(text) - 1`. -/
def chunk_loop (cfg : TextChunker) (t : List Char) (document_name : String)
    (page_number : Int) (is_section : Bool) : Nat → Int → Nat → ChunkOutcome
  | 0, _, _ => .diverged
  | fuel+1, start, chunk_index =>
    if start < (t.length : Int) then
      let end0 := start + cfg.chunk_size
      let endr : Except PyErr Int :=
        if end0 < (t.length : Int) then
          (find_boundary t end0).map fun boundary =>
            if boundary > start then boundary else end0
        else .ok end0
      match endr with
      | .error e => .error e
      | .ok e =>
        let ctext := py_strip (py_slice t start e)
        let start2 := e - cfg.chunk_overlap
        if ctext.isEmpty then
          if start2 ≥ (t.length : Int) - 1 then .ok []
          else chunk_loop cfg t document_name page_number is_section fuel start2 chunk_index
        else
          let c : TextChunk :=
            ⟨document_name, page_number,
             generate_chunk_id document_name page_number chunk_index, ctext, is_section⟩
          if start2 ≥ (t.length : Int) - 1 then .ok [c]
          else
            match chunk_loop cfg t document_name page_number is_section fuel start2 (chunk_index + 1) with
            | .ok rest => .ok (c :: rest)
            | .diverged => .diverged
            | .error e => .error e
    else .ok []

/-- `TextChunker._chunk_text` (lines 105-178): empty or whitespace-only
text contributes no chunks; text no longer than `chunk_size` becomes a
single chunk with index 0; longer text enters the sliding-window loop. -/
def chunk_text (cfg : TextChunker) (fuel : Nat) (text : List Char)
    (document_name : String) (page_number : Int) (is_section : Bool) : ChunkOutcome :=
  if text.isEmpty || (py_strip text).isEmpty then .ok []
  else
    let t := py_strip text
    if (t.length : Int) ≤ cfg.chunk_size then
      .ok [⟨document_name, page_number, generate_chunk_id document_name page_number 0,
            t, is_section⟩]
    else chunk_loop cfg t document_name page_number is_section fuel 0 0

/-- `TextChunker.chunk_pages` (lines 81-103): chunk each page in order and
concatenate. -/
def chunk_pages (cfg : TextChunker) (fuel : Nat) : List DocumentPage → ChunkOutcome
  | [] => .ok []
  | page :: rest =>
    match chunk_text cfg fuel page.text page.document_name page.page_number page.is_section with
    | .ok cs =>
      match chunk_pages cfg fuel rest with
      | .ok rest2 => .ok (cs ++ rest2)
      | .diverged => .diverged
      | .error e => .error e
    | .diverged => .diverged
    | .error e => .error e

end Rag

namespace Rag

/-! ## Helper lemmas about the validator -/

/-- Characterization of every source surviving the validation loop: its
`chunk_id` is (the string of) some retrieved chunk's id, its `is_section`
comes from the chunk-section map, and its three JSON fields were read off
some payload source object with the loop's defaults. -/
theorem process_sources_mem
    {retrieved : List RetrievedChunk} {items : List Json} {out : List SourceReference}
    (h : process_sources retrieved items = .ok out) :
    ∀ s ∈ out,
      (∃ c ∈ retrieved, s.chunk_id = Json.str c.chunk_id) ∧
      s.is_section = section_lookup retrieved s.chunk_id ∧
      ∃ src ∈ items,
        json_get src "chunk_id" (Json.str "") = .ok s.chunk_id ∧
        json_get src "document_name" (Json.str "unknown") = .ok s.document_name ∧
        json_get src "page" (Json.num 0) = .ok s.page := by
  induction items generalizing out with
  | nil =>
    simp only [process_sources, Except.ok.injEq] at h
    subst h
    intro s hs
    cases hs
  | cons src rest ih =>
    simp only [process_sources] at h
    split at h
    · exact absurd h (by simp)
    rename_i cid hcid
    split at h
    · exact absurd h (by simp)
    · -- membership test returned true
      rename_i hmem
      split at h
      · exact absurd h (by simp)
      rename_i dn hdn
      split at h
      · exact absurd h (by simp)
      rename_i pg hpg
      split at h
      · exact absurd h (by simp)
      rename_i tail htail
      injection h with h
      subst h
      intro s hs
      rcases List.mem_cons.mp hs with rfl | hs
      · -- s is the newly appended reference
        have hany : retrieved.any (fun c => py_eq_str cid c.chunk_id) = true := by
          cases cid with
          | arr xs => exact absurd hmem (by simp [chunk_id_in_retrieved])
          | obj f => exact absurd hmem (by simp [chunk_id_in_retrieved])
          | null => simpa [chunk_id_in_retrieved] using hmem
          | bool b => simpa [chunk_id_in_retrieved] using hmem
          | num q => simpa [chunk_id_in_retrieved] using hmem
          | str t => simpa [chunk_id_in_retrieved] using hmem
        obtain ⟨c, hc, heq⟩ := List.any_eq_true.mp hany
        have hcidstr : cid = Json.str c.chunk_id := by
          cases cid with
          | str t => simp only [py_eq_str, beq_iff_eq] at heq; rw [heq]
          | null => simp [py_eq_str] at heq
          | bool b => simp [py_eq_str] at heq
          | num q => simp [py_eq_str] at heq
          | arr xs => simp [py_eq_str] at heq
          | obj f => simp [py_eq_str] at heq
        refine ⟨⟨c, hc, hcidstr⟩, rfl, src, by simp, ?_⟩
        exact ⟨hcid, hdn, hpg⟩
      · obtain ⟨hA, hB, src2, hsrc2, hC⟩ := ih htail s hs
        exact ⟨hA, hB, src2, by simp [hsrc2], hC⟩
    · -- membership test returned false: the head source is dropped
      intro s hs
      obtain ⟨hA, hB, src2, hsrc2, hC⟩ := ih h s hs
      exact ⟨hA, hB, src2, by simp [hsrc2], hC⟩

/-- The per-source reconstruction rule implemented by one pass of the
validation loop body, as a pure function: read the source's `chunk_id`
(default `""`), keep the source iff that id matches a retrieved chunk,
and rebuild the reference with the payload's `document_name` (default
`"unknown"`) and `page` (default `0`) and the chunk-section map's
`is_section`.  Used to characterize the loop on its success path. -/
def reconstruct_source (retrieved : List RetrievedChunk) (src : Json) :
    Option SourceReference :=
  match json_get src "chunk_id" (Json.str "") with
  | .error _ => none
  | .ok cid =>
    if retrieved.any (fun c => py_eq_str cid c.chunk_id) then
      match json_get src "document_name" (Json.str "unknown"),
            json_get src "page" (Json.num 0) with
      | .ok dn, .ok pg => some ⟨dn, pg, cid, section_lookup retrieved cid⟩
      | _, _ => none
    else none

/-- If one `.get` on a JSON value succeeds the value is a dict, so every
other `.get` succeeds as well. -/
theorem json_get_always_ok {src : Json} {k₁ : String} {d₁ x : Json}
    (h : json_get src k₁ d₁ = .ok x) (k₂ : String) (d₂ : Json) :
    ∃ y, json_get src k₂ d₂ = .ok y := by
  cases src with
  | obj fields => exact ⟨_, rfl⟩
  | null => exact absurd h (by simp [json_get])
  | bool b => exact absurd h (by simp [json_get])
  | num q => exact absurd h (by simp [json_get])
  | str s => exact absurd h (by simp [json_get])
  | arr xs => exact absurd h (by simp [json_get])

/-- Full characterization of the validation loop on its success path: the
output is exactly the in-order reconstruction of the payload sources.  In
particular no payload source with a retrieved `chunk_id` is ever
dropped. -/
theorem process_sources_eq_filterMap {retrieved : List RetrievedChunk} :
    ∀ {items : List Json} {out : List SourceReference},
      process_sources retrieved items = .ok out →
      out = items.filterMap (reconstruct_source retrieved) := by
  intro items
  induction items with
  | nil =>
    intro out h
    simp only [process_sources, Except.ok.injEq] at h
    subst h
    simp
  | cons src rest ih =>
    intro out h
    simp only [process_sources] at h
    split at h
    · exact absurd h (by simp)
    · rename_i cid hcid
      split at h
      · exact absurd h (by simp)
      · rename_i hmem
        split at h
        · exact absurd h (by simp)
        rename_i dn hdn
        split at h
        · exact absurd h (by simp)
        rename_i pg hpg
        split at h
        · exact absurd h (by simp)
        rename_i tail htail
        injection h with h
        subst h
        have hany : retrieved.any (fun c => py_eq_str cid c.chunk_id) = true := by
          cases cid <;> simp_all [chunk_id_in_retrieved]
        have hrec : reconstruct_source retrieved src =
            some ⟨dn, pg, cid, section_lookup retrieved cid⟩ := by
          simp [reconstruct_source, hcid, hany, hdn, hpg]
        simp [List.filterMap_cons, hrec, ih htail]
      · rename_i hmem
        have hany : retrieved.any (fun c => py_eq_str cid c.chunk_id) = false := by
          cases cid <;> simp_all [chunk_id_in_retrieved]
        have hrec : reconstruct_source retrieved src = none := by
          simp [reconstruct_source, hcid, hany]
        simp [List.filterMap_cons, hrec, ih h]

/-- A successful parse of a JSON payload factors through the
source-validation loop. -/
theorem parse_response_ok_sources
    {parsed : Json} {retrieved : List RetrievedChunk} {resp : AnswerResponse}
    (h : parse_response (.ok parsed) retrieved = .ok resp) :
    ∃ raw items, json_get parsed "sources" (Json.arr []) = .ok raw ∧
      py_iter raw = .ok items ∧ process_sources retrieved items = .ok resp.sources := by
  simp only [parse_response] at h
  split at h
  · exact absurd h (by simp)
  rename_i answer hanswer
  split at h
  · exact absurd h (by simp)
  rename_i raw hraw
  split at h
  · exact absurd h (by simp)
  rename_i items hitems
  split at h
  · exact absurd h (by simp)
  rename_i sources hsources
  injection h with h
  subst h
  exact ⟨raw, items, hraw, hitems, hsources⟩

end Rag

namespace Rag

/-! ## Concrete sample values used in witnesses and counterexamples -/

/-- A concrete retrieved chunk. -/
def sample_chunk : RetrievedChunk :=
  ⟨"a.txt", 1, "a1c0", "Paris is the capital of France.", 0, false⟩

/-- A completion payload citing a chunk id that was never retrieved. -/
def bogus_payload : Json :=
  Json.obj [("answer", Json.str "Paris."),
            ("sources", Json.arr [Json.obj [("chunk_id", Json.str "bogus_id")]])]

/-- A completion payload citing the retrieved id but echoing a wrong
document name and omitting the page. -/
def echo_payload : Json :=
  Json.obj [("answer", Json.str "Paris."),
            ("sources", Json.arr [Json.obj [("chunk_id", Json.str "a1c0"),
                                            ("document_name", Json.str "b.txt")]])]

/-- A completion payload pairing the fixed refusal string with a valid
source citation. -/
def refusal_with_source_payload : Json :=
  Json.obj [("answer", Json.str NO_INFO_RESPONSE),
            ("sources", Json.arr [Json.obj [("chunk_id", Json.str "a1c0")]])]

/-! ## Claim theorems: answer validator -/

/-- C1: for every non-empty retrieved chunk list and every completion
payload on which the validator returns a result, each returned
`SourceReference` carries the id of some retrieved chunk, and every
payload source whose `chunk_id` matches no retrieved chunk is dropped and
never appears in the result. -/
theorem parse_response_sources_subset
    (retrieved : List RetrievedChunk) (hne : retrieved ≠ [])
    (payload : Json) (resp : AnswerResponse)
    (h : parse_response (.ok payload) retrieved = .ok resp) :
    (∀ s ∈ resp.sources, ∃ c ∈ retrieved, s.chunk_id = Json.str c.chunk_id) ∧
    (∀ raw items, json_get payload "sources" (Json.arr []) = .ok raw →
      py_iter raw = .ok items →
      ∀ src ∈ items, ∀ cid, json_get src "chunk_id" (Json.str "") = .ok cid →
        (∀ c ∈ retrieved, py_eq_str cid c.chunk_id = false) →
        ∀ s ∈ resp.sources, s.chunk_id ≠ cid) := by
  obtain ⟨raw, items, h1, h2, h3⟩ := parse_response_ok_sources h
  constructor
  · intro s hs
    exact (process_sources_mem h3 s hs).1
  · intro raw2 items2 h1b h2b src hsrc cid hcid hno s hs heq
    obtain ⟨c, hc, hcs⟩ := (process_sources_mem h3 s hs).1
    have hfalse := hno c hc
    rw [← heq, hcs] at hfalse
    simp [py_eq_str] at hfalse

/-- Witness for C1 at a concrete input: one retrieved chunk and a payload
citing only the fabricated id `bogus_id`; the validator keeps the answer
and filters the source out. -/
theorem parse_response_sources_subset_witness :
    parse_response (.ok bogus_payload) [sample_chunk] = .ok ⟨Json.str "Paris.", []⟩ := by
  have h := parse_response_sources_subset [sample_chunk] (by simp) bogus_payload
      ⟨Json.str "Paris.", []⟩ rfl
  exact rfl

/-- C2 counterexample: the validator does not rebuild `document_name` and
`page` from the original retrieved chunk.  With the single retrieved chunk
`sample_chunk` (document `a.txt`, page 1) and a payload source citing the
valid id but echoing document `b.txt` and no page, the returned reference
carries the payload's `b.txt` and the default page 0 — not the chunk's
`a.txt` and 1 as the claim states. -/
theorem source_fields_echo_payload :
    parse_response (.ok echo_payload) [sample_chunk] =
      .ok ⟨Json.str "Paris.",
           [⟨Json.str "b.txt", Json.num 0, Json.str "a1c0", false⟩]⟩ ∧
    sample_chunk.document_name = "a.txt" ∧ sample_chunk.page_number = 1 ∧
    Json.str "b.txt" ≠ Json.str sample_chunk.document_name ∧
    Json.num 0 ≠ Json.num (1 : Rat) := by
  refine ⟨rfl, rfl, rfl, ?_, ?_⟩
  · intro hcontra
    injection hcontra with h2
    exact absurd h2 (by decide)
  · intro hcontra
    injection hcontra with h2
    norm_num at h2

/-- C2 amended, both directions.  Backward: each surviving source is
rebuilt with `is_section` from the chunk-section map (the last retrieved
chunk with that id), while `document_name` and `page` are read from the
payload source object with defaults `"unknown"` and `0`; its chunk_id is
a retrieved id.  Forward: every payload source object whose `chunk_id`
matches a retrieved chunk IS reconstructed and kept — the validated
sources are exactly the in-order reconstruction (`filterMap`) of the
payload's sources, so a completion citing only valid ids round-trips all
of them. -/
theorem parse_response_source_reconstruction
    (retrieved : List RetrievedChunk) (payload : Json) (resp : AnswerResponse)
    (h : parse_response (.ok payload) retrieved = .ok resp) :
    (∀ s ∈ resp.sources,
      (∃ c ∈ retrieved, s.chunk_id = Json.str c.chunk_id) ∧
      s.is_section = section_lookup retrieved s.chunk_id ∧
      ∃ raw items, json_get payload "sources" (Json.arr []) = .ok raw ∧
        py_iter raw = .ok items ∧
        ∃ src ∈ items,
          json_get src "chunk_id" (Json.str "") = .ok s.chunk_id ∧
          json_get src "document_name" (Json.str "unknown") = .ok s.document_name ∧
          json_get src "page" (Json.num 0) = .ok s.page) ∧
    (∀ raw items, json_get payload "sources" (Json.arr []) = .ok raw →
      py_iter raw = .ok items →
      resp.sources = items.filterMap (reconstruct_source retrieved) ∧
      ∀ src ∈ items, ∀ cid, json_get src "chunk_id" (Json.str "") = .ok cid →
        retrieved.any (fun c => py_eq_str cid c.chunk_id) = true →
        ∃ s ∈ resp.sources, s.chunk_id = cid ∧
          json_get src "document_name" (Json.str "unknown") = .ok s.document_name ∧
          json_get src "page" (Json.num 0) = .ok s.page ∧
          s.is_section = section_lookup retrieved cid) := by
  obtain ⟨raw₀, items₀, h1, h2, h3⟩ := parse_response_ok_sources h
  constructor
  · intro s hs
    obtain ⟨hA, hB, src, hsrc, hC⟩ := process_sources_mem h3 s hs
    exact ⟨hA, hB, raw₀, items₀, h1, h2, src, hsrc, hC⟩
  · intro raw items hraw hitems
    obtain rfl : raw = raw₀ := by
      have := hraw.symm.trans h1
      injection this
    obtain rfl : items = items₀ := by
      have := hitems.symm.trans h2
      injection this
    have hchar := process_sources_eq_filterMap h3
    refine ⟨hchar, ?_⟩
    intro src hsrc cid hcid hany
    obtain ⟨dn, hdn⟩ := json_get_always_ok hcid "document_name" (Json.str "unknown")
    obtain ⟨pg, hpg⟩ := json_get_always_ok hcid "page" (Json.num 0)
    have hrec : reconstruct_source retrieved src =
        some ⟨dn, pg, cid, section_lookup retrieved cid⟩ := by
      simp [reconstruct_source, hcid, hany, hdn, hpg]
    refine ⟨⟨dn, pg, cid, section_lookup retrieved cid⟩, ?_, rfl, hdn, hpg, rfl⟩
    rw [hchar]
    exact List.mem_filterMap.mpr ⟨src, hsrc, hrec⟩

/-- Witness for the amended C2 at the `echo_payload` input: the single
valid payload source round-trips (the output equals the reconstruction of
the payload's sources, and the cited id is kept), with `is_section` from
the retrieved chunk. -/
theorem parse_response_source_reconstruction_witness :
    (⟨Json.str "Paris.",
      [⟨Json.str "b.txt", Json.num 0, Json.str "a1c0", false⟩]⟩ : AnswerResponse).sources =
      [Json.obj [("chunk_id", Json.str "a1c0"),
                 ("document_name", Json.str "b.txt")]].filterMap
        (reconstruct_source [sample_chunk]) ∧
    (∃ s ∈ (⟨Json.str "Paris.",
        [⟨Json.str "b.txt", Json.num 0, Json.str "a1c0", false⟩]⟩ : AnswerResponse).sources,
      s.chunk_id = Json.str "a1c0" ∧ s.is_section = section_lookup [sample_chunk] (Json.str "a1c0")) := by
  have h := (parse_response_source_reconstruction [sample_chunk] echo_payload
      ⟨Json.str "Paris.", [⟨Json.str "b.txt", Json.num 0, Json.str "a1c0", false⟩]⟩ rfl).2
      (Json.arr [Json.obj [("chunk_id", Json.str "a1c0"),
                           ("document_name", Json.str "b.txt")]])
      [Json.obj [("chunk_id", Json.str "a1c0"), ("document_name", Json.str "b.txt")]]
      rfl rfl
  obtain ⟨hchar, hfwd⟩ := h
  obtain ⟨s, hs, hsid, -, -, hsec⟩ := hfwd
      (Json.obj [("chunk_id", Json.str "a1c0"), ("document_name", Json.str "b.txt")])
      (List.mem_singleton.mpr rfl) (Json.str "a1c0") rfl (by decide)
  exact ⟨hchar, s, hs, hsid, hsec⟩

/-- C3 counterexample: the validator does not enforce the claimed
invariant.  A parsed payload that pairs the fixed refusal string with a
valid citation is returned as-is: the answer equals the refusal string
while the sources list is non-empty. -/
theorem refusal_with_sources_possible :
    parse_response (.ok refusal_with_source_payload) [sample_chunk] =
      .ok ⟨Json.str NO_INFO_RESPONSE,
           [⟨Json.str "unknown", Json.num 0, Json.str "a1c0", false⟩]⟩ ∧
    [(⟨Json.str "unknown", Json.num 0, Json.str "a1c0", false⟩ : SourceReference)] ≠ [] :=
  ⟨rfl, by simp⟩

/-- C3 amended: on the two refusal paths (empty retrieved set; JSON decode
failure) the answer is the refusal string and the sources are empty; the
converse direction of the claimed invariant is not enforced on the
parse-success path. -/
theorem refusal_paths_empty_sources (question : String) (completion : ParseOutcome)
    (retrieved : List RetrievedChunk) :
    generate true question [] completion = .ok ⟨⟨Json.str NO_INFO_RESPONSE, []⟩, false⟩ ∧
    parse_response .decodeError retrieved = .ok ⟨Json.str NO_INFO_RESPONSE, []⟩ :=
  ⟨rfl, rfl⟩

/-- C4: a completion whose JSON extraction fails yields the fixed refusal
response with empty sources, through the validator and through the whole
answer operation, raising nothing. -/
theorem decode_error_refusal (question : String) (retrieved : List RetrievedChunk) :
    parse_response .decodeError retrieved = .ok ⟨Json.str NO_INFO_RESPONSE, []⟩ ∧
    (generate true question retrieved .decodeError).map GenerateResult.response =
      .ok ⟨Json.str NO_INFO_RESPONSE, []⟩ := by
  refine ⟨rfl, ?_⟩
  cases retrieved with
  | nil => rfl
  | cons c cs => rfl

/-- C5: with a configured client and an empty retrieved chunk list the
answer operation returns the fixed refusal string with empty sources and
does not invoke the generation service (the result is independent of the
completion and the call flag is false). -/
theorem generate_empty_retrieved_refuses (question : String) (completion : ParseOutcome) :
    generate true question [] completion = .ok ⟨⟨Json.str NO_INFO_RESPONSE, []⟩, false⟩ :=
  rfl

/-- C10: a completion that is valid JSON but not a JSON object (an array
or a bare string) makes the validator raise an uncaught `AttributeError`
(`.get` on a non-dict) instead of returning a refusal or any result; the
refusal fallback covers only JSON decode errors, and `generate` re-raises
the exception. -/
theorem non_object_payload_raises :
    parse_response (.ok (Json.arr [])) [sample_chunk] = .error .attributeError ∧
    parse_response (.ok (Json.str "Paris is nice.")) [sample_chunk] = .error .attributeError ∧
    generate true "What is the capital of France?" [sample_chunk] (.ok (Json.arr [])) =
      .error .attributeError :=
  ⟨rfl, rfl, rfl⟩

end Rag

namespace Rag

/-! ## Claim theorems: retrieval adapter -/

/-- C9: the retrieve operation normalizes each result record in the
index-supplied order; an absent `document_name` becomes `"unknown"`, an
absent `page_number` becomes 0, an absent `is_section` becomes `false`,
an absent distance becomes score 1, and present fields keep their
values. -/
theorem retrieve_normalization (results : List SearchResult) :
    (retrieve results).length = results.length ∧
    (∀ i : Nat, (retrieve results)[i]? = (results[i]?).map normalize_result) ∧
    (∀ r : SearchResult, r.metadata = none →
      (normalize_result r).document_name = "unknown" ∧
      (normalize_result r).page_number = 0 ∧
      (normalize_result r).is_section = false) ∧
    (∀ r : SearchResult, ∀ md : ResultMetadata, r.metadata = some md →
      (md.document_name = none → (normalize_result r).document_name = "unknown") ∧
      (∀ d, md.document_name = some d → (normalize_result r).document_name = d) ∧
      (md.page_number = none → (normalize_result r).page_number = 0) ∧
      (∀ p, md.page_number = some p → (normalize_result r).page_number = p) ∧
      (md.is_section = none → (normalize_result r).is_section = false) ∧
      (∀ b, md.is_section = some b → (normalize_result r).is_section = b)) ∧
    (∀ r : SearchResult,
      (r.distance = none → (normalize_result r).score = 1) ∧
      (∀ q, r.distance = some q → (normalize_result r).score = q) ∧
      (r.chunk_id = none → (normalize_result r).chunk_id = "unknown") ∧
      (∀ cid, r.chunk_id = some cid → (normalize_result r).chunk_id = cid) ∧
      (r.text = none → (normalize_result r).text = "") ∧
      (∀ tx, r.text = some tx → (normalize_result r).text = tx)) := by
  refine ⟨by simp [retrieve], by simp [retrieve], ?_, ?_, ?_⟩
  · intro r hmd
    simp [normalize_result, hmd, empty_metadata]
  · intro r md hmd
    refine ⟨?_, ?_, ?_, ?_, ?_, ?_⟩ <;>
      first
        | (intro hf; simp [normalize_result, hmd, hf])
        | (intro v hf; simp [normalize_result, hmd, hf])
  · intro r
    refine ⟨?_, ?_, ?_, ?_, ?_, ?_⟩ <;>
      first
        | (intro hf; simp [normalize_result, hf])
        | (intro v hf; simp [normalize_result, hf])

/-- Witness for C9 at concrete records: an all-absent record gets every
default, and a fully populated record keeps its values. -/
theorem retrieve_normalization_witness :
    (normalize_result ⟨none, none, none, none⟩).document_name = "unknown" ∧
    (normalize_result ⟨none, none, none, none⟩).page_number = 0 ∧
    (normalize_result ⟨none, none, none, none⟩).is_section = false ∧
    (normalize_result ⟨none, none, none, none⟩).score = 1 ∧
    (normalize_result ⟨some "c1", some "body", some ⟨some "doc.pdf", some 3, some true⟩,
        some (1/2)⟩).document_name = "doc.pdf" ∧
    (normalize_result ⟨some "c1", some "body", some ⟨some "doc.pdf", some 3, some true⟩,
        some (1/2)⟩).score = 1/2 := by
  obtain ⟨-, -, h3, h4, h5⟩ := retrieve_normalization []
  obtain ⟨ha, hb, hc⟩ := h3 ⟨none, none, none, none⟩ rfl
  obtain ⟨hd, -, -, -, -, -⟩ := h5 ⟨none, none, none, none⟩
  have he := (h4 ⟨some "c1", some "body", some ⟨some "doc.pdf", some 3, some true⟩, some (1/2)⟩
      ⟨some "doc.pdf", some 3, some true⟩ rfl).2.1 "doc.pdf" rfl
  have hf := (h5 ⟨some "c1", some "body", some ⟨some "doc.pdf", some 3, some true⟩,
      some (1/2)⟩).2.1 (1/2) rfl
  exact ⟨ha, hb, hc, hd rfl, he, hf⟩

end Rag

namespace Rag

/-! ## Claim theorems: chunker configuration and loop behaviour -/

/-- Twenty `x` characters: a whitespace-free page text. -/
def x20 : List Char := List.replicate 20 'x'

/-- Three hundred `a` characters: a single 300-character word. -/
def a300 : List Char := List.replicate 300 'a'

/-- A 400-character text whose only sentence boundary sits at position
50-51; everything else is the letter `x`. -/
def t400 : List Char := List.replicate 50 'x' ++ ['.', ' '] ++ List.replicate 348 'x'

/-- C6: `TextChunker.__init__` performs no validation: the configuration
`chunk_size = overlap = 10`, which violates the claimed precondition
`chunk_size > overlap ≥ 0`, is stored unchanged instead of being rejected
with a configuration error, and on the 20-character whitespace-free page
`x20` the chunking loop then runs forever (the fuel-indexed loop never
finishes, for any fuel). -/
theorem init_accepts_invalid_config_and_loops :
    TextChunker.init (some 10) (some 10) = ⟨10, 10⟩ ∧
    ∀ fuel : Nat, chunk_text ⟨10, 10⟩ fuel x20 "d" 1 false = .diverged := by
  constructor
  · rfl
  · have key : ∀ f idx, chunk_loop ⟨10, 10⟩ x20 "d" 1 false f 10 idx = .diverged := by
      intro f
      induction f with
      | zero => intro idx; rfl
      | succ n ih =>
        intro idx
        have step : chunk_loop ⟨10, 10⟩ x20 "d" 1 false (n+1) 10 idx =
            match chunk_loop ⟨10, 10⟩ x20 "d" 1 false n 10 (idx+1) with
            | .ok rest =>
              .ok (⟨"d", 1, generate_chunk_id "d" 1 idx, List.replicate 10 'x', false⟩ :: rest)
            | .diverged => .diverged
            | .error e => .error e := rfl
        rw [step, ih (idx+1)]
    intro fuel
    cases fuel with
    | zero => rfl
    | succ n =>
      have step0 : chunk_text ⟨10, 10⟩ (n+1) x20 "d" 1 false =
          match chunk_loop ⟨10, 10⟩ x20 "d" 1 false n 10 1 with
          | .ok rest => .ok (⟨"d", 1, generate_chunk_id "d" 1 0, x20, false⟩ :: rest)
          | .diverged => .diverged
          | .error e => .error e := rfl
      rw [step0, key n 1]

/-- C7: both halves of the claim fail on the code.  With the valid
configuration `chunk_size = 100, overlap = 50` (`0 ≤ 50 < 100`) on the
300-character single-word page `a300`, the word-boundary fallback extends
the first chunk to the whole word: the run terminates with chunk lengths
`[300, 50]`, and `300` exceeds `chunk_size` plus the 50-character search
window that bounds the claimed boundary slack.  And with the equally valid
configuration `chunk_size = 100, overlap = 60` on `t400`, a sentence
boundary behind the window start pulls `start` back to `-8` where it stays
forever: the loop does not terminate at all. -/
theorem chunk_bound_and_termination_fail :
    TextChunker.init (some 100) (some 50) = ⟨100, 50⟩ ∧
    (match chunk_text ⟨100, 50⟩ 10 a300 "d" 1 false with
     | .ok cs => cs.map fun c => c.text.length
     | _ => []) = [300, 50] ∧
    ¬ (300 ≤ 100 + 50) ∧
    ∀ fuel : Nat, chunk_text ⟨100, 60⟩ fuel t400 "d" 1 false = .diverged := by
  refine ⟨rfl, by decide, by decide, ?_⟩
  have key : ∀ f idx, chunk_loop ⟨100, 60⟩ t400 "d" 1 false f (-8) idx = .diverged := by
    intro f
    induction f with
    | zero => intro idx; rfl
    | succ n ih =>
      intro idx
      have step : chunk_loop ⟨100, 60⟩ t400 "d" 1 false (n+1) (-8) idx =
          chunk_loop ⟨100, 60⟩ t400 "d" 1 false n (-8) idx := rfl
      rw [step, ih idx]
  intro fuel
  cases fuel with
  | zero => rfl
  | succ n =>
    have step0 : chunk_text ⟨100, 60⟩ (n+1) t400 "d" 1 false =
        match chunk_loop ⟨100, 60⟩ t400 "d" 1 false n (-8) 1 with
        | .ok rest =>
          .ok (⟨"d", 1, generate_chunk_id "d" 1 0,
                List.replicate 50 'x' ++ ['.'], false⟩ :: rest)
        | .diverged => .diverged
        | .error e => .error e := rfl
    rw [step0, key n 1]

end Rag

namespace Rag

/-! ## Decimal rendering: injectivity via a parse round-trip -/

/-- Numeric value of a digit character. -/
def char_val (c : Char) : Nat := c.toNat - 48

/-- Decimal value of a digit string. -/
def parse_digits (l : List Char) : Nat := l.foldl (fun a c => 10 * a + char_val c) 0

theorem parse_digits_append (l : List Char) (c : Char) :
    parse_digits (l ++ [c]) = 10 * parse_digits l + char_val c := by
  simp [parse_digits, List.foldl_append]

theorem char_val_digit_char {k : Nat} (h : k < 10) : char_val (digit_char k) = k := by
  interval_cases k <;> rfl

theorem digit_char_isDigit {k : Nat} (h : k < 10) : (digit_char k).isDigit = true := by
  interval_cases k <;> rfl

theorem nat_digits_aux_parse :
    ∀ fuel n, n ≤ fuel → parse_digits (nat_digits_aux fuel n) = n := by
  intro fuel
  induction fuel with
  | zero =>
    intro n hn
    interval_cases n
    rfl
  | succ f ih =>
    intro n hn
    by_cases h0 : n = 0
    · subst h0; rfl
    · have hstep : nat_digits_aux (f+1) n =
          nat_digits_aux f (n / 10) ++ [digit_char (n % 10)] := by
        simp [nat_digits_aux, h0]
      have hdiv : n / 10 ≤ f := by
        have := Nat.div_lt_self (Nat.pos_of_ne_zero h0) (by norm_num : 1 < 10)
        omega
      have hmod : n % 10 < 10 := Nat.mod_lt _ (by norm_num)
      rw [hstep, parse_digits_append, ih (n / 10) hdiv, char_val_digit_char hmod]
      exact Nat.div_add_mod n 10

theorem parse_nat_to_digits (n : Nat) : parse_digits (nat_to_digits n) = n := by
  by_cases h0 : n = 0
  · subst h0; rfl
  · simp only [nat_to_digits, h0, if_false]
    exact nat_digits_aux_parse n n le_rfl

theorem nat_to_digits_inj {m n : Nat} (h : nat_to_digits m = nat_to_digits n) : m = n := by
  have hm := parse_nat_to_digits m
  rw [h, parse_nat_to_digits] at hm
  exact hm.symm

theorem nat_digits_aux_digits :
    ∀ fuel n, ∀ c ∈ nat_digits_aux fuel n, c.isDigit = true := by
  intro fuel
  induction fuel with
  | zero => intro n c hc; cases hc
  | succ f ih =>
    intro n c hc
    by_cases h0 : n = 0
    · subst h0; simp [nat_digits_aux] at hc
    · simp only [nat_digits_aux, h0, if_false, List.mem_append, List.mem_singleton] at hc
      rcases hc with hc | rfl
      · exact ih _ _ hc
      · exact digit_char_isDigit (Nat.mod_lt _ (by norm_num))

theorem nat_to_digits_digits {n : Nat} : ∀ c ∈ nat_to_digits n, c.isDigit = true := by
  intro c hc
  by_cases h0 : n = 0
  · subst h0
    simp [nat_to_digits] at hc
    subst hc; rfl
  · simp only [nat_to_digits, h0, if_false] at hc
    exact nat_digits_aux_digits n n c hc

/-! ## Splitting off the maximal trailing digit run -/

theorem takeWhile_append_of_all {p : Char → Bool} :
    ∀ (l₁ : List Char) (c : Char) (l₂ : List Char),
      (∀ a ∈ l₁, p a = true) → p c = false →
      (l₁ ++ c :: l₂).takeWhile p = l₁ := by
  intro l₁
  induction l₁ with
  | nil =>
    intro c l₂ h1 h2
    simp [List.takeWhile_cons, h2]
  | cons a l ih =>
    intro c l₂ h1 h2
    have ha : p a = true := h1 a (by simp)
    simp [List.takeWhile_cons, ha, ih c l₂ (fun x hx => h1 x (by simp [hx])) h2]

theorem dropWhile_append_of_all {p : Char → Bool} :
    ∀ (l₁ : List Char) (c : Char) (l₂ : List Char),
      (∀ a ∈ l₁, p a = true) → p c = false →
      (l₁ ++ c :: l₂).dropWhile p = c :: l₂ := by
  intro l₁
  induction l₁ with
  | nil =>
    intro c l₂ h1 h2
    simp [List.dropWhile_cons, h2]
  | cons a l ih =>
    intro c l₂ h1 h2
    have ha : p a = true := h1 a (by simp)
    simp [List.dropWhile_cons, ha, ih c l₂ (fun x hx => h1 x (by simp [hx])) h2]

/-- The part of a list before its maximal trailing digit run. -/
def split_digits_rest (l : List Char) : List Char :=
  (l.reverse.dropWhile Char.isDigit).reverse

/-- The maximal trailing digit run of a list. -/
def split_digits_tail (l : List Char) : List Char :=
  (l.reverse.takeWhile Char.isDigit).reverse

/-- A list of the shape `X₀ ++ [c] ++ D` with `c` a non-digit and `D` all
digits splits exactly at the `c`. -/
theorem split_trailing_digits (X₀ : List Char) (c : Char) (D : List Char)
    (hc : c.isDigit = false) (hD : ∀ a ∈ D, a.isDigit = true) :
    split_digits_rest ((X₀ ++ [c]) ++ D) = X₀ ++ [c] ∧
    split_digits_tail ((X₀ ++ [c]) ++ D) = D := by
  have hrev : ((X₀ ++ [c]) ++ D).reverse = D.reverse ++ c :: X₀.reverse := by
    simp
  have hDrev : ∀ a ∈ D.reverse, a.isDigit = true := fun a ha => hD a (List.mem_reverse.mp ha)
  constructor
  · unfold split_digits_rest
    rw [hrev, dropWhile_append_of_all D.reverse c X₀.reverse hDrev hc]
    simp
  · unfold split_digits_tail
    rw [hrev, takeWhile_append_of_all D.reverse c X₀.reverse hDrev hc]
    simp

end Rag

namespace Rag

/-! ## Injectivity of chunk-id generation -/

theorem bytes_hex_length : ∀ l : List Nat, (bytes_hex l).length = 2 * l.length := by
  intro l
  induction l with
  | nil => rfl
  | cons b rest ih =>
    simp only [bytes_hex, byte_hex, List.cons_append, List.nil_append, List.length_cons, ih]
    omega

theorem md5_digest_bytes_length (s : String) : (md5_digest_bytes s).length = 16 := by
  simp [md5_digest_bytes, le_bytes4]

theorem md5_hex_list_length (s : String) : (md5_hex_list s).length = 32 := by
  simp [md5_hex_list, bytes_hex_length, md5_digest_bytes_length]

theorem core_shape (d : String) (p : Int) (i : Nat) :
    generate_chunk_id_core d p i =
      ((d.data ++ ['_', 'p'] ++ int_to_digits p ++ ['_']) ++ ['c']) ++ nat_to_digits i := by
  simp [generate_chunk_id_core]

/-- The prefix `{d}_p{p}_c{i}` determines `d`, `p` and `i` for nonnegative
page numbers. -/
theorem chunk_id_core_inj {d₁ d₂ : String} {p₁ p₂ : Int} {i₁ i₂ : Nat}
    (hp₁ : 0 ≤ p₁) (hp₂ : 0 ≤ p₂)
    (h : generate_chunk_id_core d₁ p₁ i₁ = generate_chunk_id_core d₂ p₂ i₂) :
    d₁ = d₂ ∧ p₁ = p₂ ∧ i₁ = i₂ := by
  have e₁ : int_to_digits p₁ = nat_to_digits p₁.toNat := by
    simp [int_to_digits, Int.not_lt.mpr hp₁]
  have e₂ : int_to_digits p₂ = nat_to_digits p₂.toNat := by
    simp [int_to_digits, Int.not_lt.mpr hp₂]
  have hsplit₁ := split_trailing_digits (d₁.data ++ ['_', 'p'] ++ int_to_digits p₁ ++ ['_'])
      'c' (nat_to_digits i₁) (by decide) (fun a ha => nat_to_digits_digits a ha)
  have hsplit₂ := split_trailing_digits (d₂.data ++ ['_', 'p'] ++ int_to_digits p₂ ++ ['_'])
      'c' (nat_to_digits i₂) (by decide) (fun a ha => nat_to_digits_digits a ha)
  have hX : (d₁.data ++ ['_', 'p'] ++ int_to_digits p₁ ++ ['_']) ++ ['c'] =
      (d₂.data ++ ['_', 'p'] ++ int_to_digits p₂ ++ ['_']) ++ ['c'] := by
    rw [← hsplit₁.1, ← hsplit₂.1, ← core_shape, ← core_shape, h]
  have hI : nat_to_digits i₁ = nat_to_digits i₂ := by
    rw [← hsplit₁.2, ← hsplit₂.2, ← core_shape, ← core_shape, h]
  have hi : i₁ = i₂ := nat_to_digits_inj hI
  obtain ⟨hY, -⟩ := List.append_inj' hX rfl
  obtain ⟨hZ, -⟩ := List.append_inj' hY rfl
  rw [e₁, e₂] at hZ
  have hZ₁ : ((d₁.data ++ ['_']) ++ ['p']) ++ nat_to_digits p₁.toNat =
      ((d₂.data ++ ['_']) ++ ['p']) ++ nat_to_digits p₂.toNat := by
    simpa using hZ
  have hs₁ := split_trailing_digits (d₁.data ++ ['_']) 'p' (nat_to_digits p₁.toNat)
      (by decide) (fun a ha => nat_to_digits_digits a ha)
  have hs₂ := split_trailing_digits (d₂.data ++ ['_']) 'p' (nat_to_digits p₂.toNat)
      (by decide) (fun a ha => nat_to_digits_digits a ha)
  have hW : (d₁.data ++ ['_']) ++ ['p'] = (d₂.data ++ ['_']) ++ ['p'] := by
    rw [← hs₁.1, ← hs₂.1, hZ₁]
  have hP : nat_to_digits p₁.toNat = nat_to_digits p₂.toNat := by
    rw [← hs₁.2, ← hs₂.2, hZ₁]
  have hp : p₁ = p₂ := by
    have := nat_to_digits_inj hP
    omega
  obtain ⟨hW₂, -⟩ := List.append_inj' hW rfl
  obtain ⟨hd, -⟩ := List.append_inj' hW₂ rfl
  have hdeq : d₁ = d₂ := by
    cases d₁; cases d₂
    exact congrArg String.mk (by simpa using hd)
  exact ⟨hdeq, hp, hi⟩

/-- Chunk ids are injective in `(document_name, page_number, index)` for
nonnegative page numbers: the 8-character digest suffix has fixed length,
so equal ids force equal prefixes. -/
theorem generate_chunk_id_inj {d₁ d₂ : String} {p₁ p₂ : Int} {i₁ i₂ : Nat}
    (hp₁ : 0 ≤ p₁) (hp₂ : 0 ≤ p₂)
    (h : generate_chunk_id d₁ p₁ i₁ = generate_chunk_id d₂ p₂ i₂) :
    d₁ = d₂ ∧ p₁ = p₂ ∧ i₁ = i₂ := by
  have hdata : generate_chunk_id_core d₁ p₁ i₁ ++
      '_' :: (md5_hex_list (String.mk (generate_chunk_id_base d₁ p₁ i₁))).take 8 =
      generate_chunk_id_core d₂ p₂ i₂ ++
      '_' :: (md5_hex_list (String.mk (generate_chunk_id_base d₂ p₂ i₂))).take 8 := by
    have hd := congrArg String.data h
    simpa [generate_chunk_id] using hd
  have hlen : ('_' :: (md5_hex_list (String.mk (generate_chunk_id_base d₁ p₁ i₁))).take 8).length =
      ('_' :: (md5_hex_list (String.mk (generate_chunk_id_base d₂ p₂ i₂))).take 8).length := by
    simp [List.length_take, md5_hex_list_length]
  obtain ⟨hcore, -⟩ := List.append_inj' hdata hlen
  exact chunk_id_core_inj hp₁ hp₂ hcore

end Rag

namespace Rag

/-! ## Structure of the chunks emitted by a run -/

/-- Every successful run of the chunking loop emits chunks carrying the
page's document name and page number, whose ids are `generate_chunk_id`
at strictly increasing indexes starting at or after the entry index. -/
theorem chunk_loop_chunks (cfg : TextChunker) (t : List Char) (d : String)
    (p : Int) (sec : Bool) :
    ∀ (fuel : Nat) (start : Int) (idx : Nat) (cs : List TextChunk),
      chunk_loop cfg t d p sec fuel start idx = .ok cs →
      (∀ c ∈ cs, c.document_name = d ∧ c.page_number = p) ∧
      ∃ ks : List Nat, cs.map TextChunk.chunk_id = ks.map (generate_chunk_id d p) ∧
        ks.Chain' (· < ·) ∧ ∀ k ∈ ks, idx ≤ k := by
  intro fuel
  induction fuel with
  | zero =>
    intro start idx cs h
    exact absurd h (by simp [chunk_loop])
  | succ n ih =>
    intro start idx cs h
    simp only [chunk_loop] at h
    split at h
    · split at h
      · exact absurd h (by simp)
      · split at h
        · split at h
          · injection h with h
            subst h
            exact ⟨by simp, [], by simp, by simp, by simp⟩
          · exact ih _ _ _ h
        · split at h
          · injection h with h
            subst h
            refine ⟨?_, [idx], by simp, by simp, by simp⟩
            intro c hc
            rcases List.mem_singleton.mp hc with rfl
            exact ⟨rfl, rfl⟩
          · split at h
            · rename_i rest hrest
              injection h with h
              subst h
              obtain ⟨hfields, ks, hmap, hchain, hbound⟩ := ih _ _ _ hrest
              refine ⟨?_, idx :: ks, ?_, ?_, ?_⟩
              · intro c hc
                rcases List.mem_cons.mp hc with rfl | hc
                · exact ⟨rfl, rfl⟩
                · exact hfields c hc
              · simpa using hmap
              · refine List.chain'_cons'.mpr ⟨?_, hchain⟩
                intro y hy
                have hyk := hbound y (List.mem_of_mem_head? hy)
                omega
              · intro k hk
                rcases List.mem_cons.mp hk with rfl | hk
                · exact le_rfl
                · have := hbound k hk
                  omega
            · exact absurd h (by simp)
            · exact absurd h (by simp)
    · injection h with h
      subst h
      exact ⟨by simp, [], by simp, by simp, by simp⟩

/-- Same structure through `chunk_text`. -/
theorem chunk_text_chunks (cfg : TextChunker) (fuel : Nat) (t : List Char)
    (d : String) (p : Int) (sec : Bool) (cs : List TextChunk)
    (h : chunk_text cfg fuel t d p sec = .ok cs) :
    (∀ c ∈ cs, c.document_name = d ∧ c.page_number = p) ∧
    ∃ ks : List Nat, cs.map TextChunk.chunk_id = ks.map (generate_chunk_id d p) ∧
      ks.Chain' (· < ·) := by
  simp only [chunk_text] at h
  split at h
  · injection h with h
    subst h
    exact ⟨by simp, [], by simp, by simp⟩
  · split at h
    · injection h with h
      subst h
      refine ⟨?_, [0], by simp, by simp⟩
      intro c hc
      rcases List.mem_singleton.mp hc with rfl
      exact ⟨rfl, rfl⟩
    · obtain ⟨hf, ks, hm, hc, -⟩ := chunk_loop_chunks cfg (py_strip t) d p sec fuel 0 0 cs h
      exact ⟨hf, ks, hm, hc⟩

/-- Chunk ids produced from a single page are pairwise distinct. -/
theorem chunk_text_ids_nodup {cfg : TextChunker} {fuel : Nat} {t : List Char}
    {d : String} {p : Int} {sec : Bool} {cs : List TextChunk}
    (hp : 0 ≤ p) (h : chunk_text cfg fuel t d p sec = .ok cs) :
    (cs.map TextChunk.chunk_id).Nodup := by
  obtain ⟨-, ks, hm, hchain⟩ := chunk_text_chunks cfg fuel t d p sec cs h
  rw [hm]
  have hpw : ks.Pairwise (· < ·) := List.chain'_iff_pairwise.mp hchain
  have hne : (ks.map (generate_chunk_id d p)).Pairwise (· ≠ ·) := by
    refine hpw.map _ ?_
    intro a b hab heq
    obtain ⟨-, -, hik⟩ := generate_chunk_id_inj hp hp heq
    omega
  exact hne

/-- Chunk ids produced from pages with pairwise distinct
`(document_name, page_number)` pairs (and nonnegative page numbers) are
pairwise distinct, and every chunk can be traced back to its page. -/
theorem chunk_pages_chunks (cfg : TextChunker) (fuel : Nat) :
    ∀ (pages : List DocumentPage) (cs : List TextChunk),
      pages.Pairwise (fun a b =>
        (a.document_name, a.page_number) ≠ (b.document_name, b.page_number)) →
      (∀ pg ∈ pages, 0 ≤ pg.page_number) →
      chunk_pages cfg fuel pages = .ok cs →
      (cs.map TextChunk.chunk_id).Nodup ∧
      ∀ c ∈ cs, ∃ pg ∈ pages, ∃ k, c.document_name = pg.document_name ∧
        c.page_number = pg.page_number ∧
        c.chunk_id = generate_chunk_id pg.document_name pg.page_number k := by
  intro pages
  induction pages with
  | nil =>
    intro cs _ _ h
    simp only [chunk_pages] at h
    injection h with h
    subst h
    simp
  | cons pg rest ih =>
    intro cs hpair hpos h
    simp only [chunk_pages] at h
    split at h
    · rename_i cs₁ h₁
      split at h
      · rename_i cs₂ h₂
        injection h with h
        subst h
        have hpos₁ : 0 ≤ pg.page_number := hpos pg (by simp)
        obtain ⟨hn₂, hform₂⟩ := ih cs₂ (List.pairwise_cons.mp hpair).2
          (fun q hq => hpos q (by simp [hq])) h₂
        obtain ⟨hfields₁, ks, hmap₁, hchain₁⟩ :=
          chunk_text_chunks cfg fuel pg.text pg.document_name pg.page_number pg.is_section cs₁ h₁
        have hn₁ : (cs₁.map TextChunk.chunk_id).Nodup := chunk_text_ids_nodup hpos₁ h₁
        constructor
        · rw [List.map_append]
          refine hn₁.append hn₂ ?_
          intro a ha₁ ha₂
          obtain ⟨c₁, hc₁, rfl⟩ := List.mem_map.mp ha₁
          obtain ⟨c₂, hc₂, hcid⟩ := List.mem_map.mp ha₂
          obtain ⟨pg', hpg', k₂, hd₂, hp₂, hid₂⟩ := hform₂ c₂ hc₂
          have hc1mem : c₁.chunk_id ∈ cs₁.map TextChunk.chunk_id := List.mem_map_of_mem _ hc₁
          rw [hmap₁] at hc1mem
          obtain ⟨k₁, -, hid₁⟩ := List.mem_map.mp hc1mem
          have heq : generate_chunk_id pg.document_name pg.page_number k₁ =
              generate_chunk_id pg'.document_name pg'.page_number k₂ := by
            rw [hid₁, ← hcid, hid₂]
          have hpos' : 0 ≤ pg'.page_number := hpos pg' (by simp [hpg'])
          obtain ⟨hdeq, hpeq, -⟩ := generate_chunk_id_inj hpos₁ hpos' heq
          have hne := (List.pairwise_cons.mp hpair).1 pg' hpg'
          exact hne (by rw [hdeq, hpeq])
        · intro c hc
          rcases List.mem_append.mp hc with hc | hc
          · refine ⟨pg, by simp, ?_⟩
            obtain ⟨hd, hp2⟩ := hfields₁ c hc
            have hmem : c.chunk_id ∈ cs₁.map TextChunk.chunk_id := List.mem_map_of_mem _ hc
            rw [hmap₁] at hmem
            obtain ⟨k, -, hkid⟩ := List.mem_map.mp hmem
            exact ⟨k, hd, hp2, hkid.symm⟩
          · obtain ⟨pg', hpg', k, h1, h2, h3⟩ := hform₂ c hc
            exact ⟨pg', by simp [hpg'], k, h1, h2, h3⟩
      · exact absurd h (by simp)
      · exact absurd h (by simp)
    · exact absurd h (by simp)
    · exact absurd h (by simp)

end Rag

namespace Rag

/-! ## Claim theorems: chunk ids -/

/-- C8 counterexample: ids are not pairwise distinct for every list of
pages.  Two distinct pages sharing `(document_name, page_number)` (here
`("a", 1)` with different texts) produce two chunks with the identical
id `generate_chunk_id "a" 1 0`. -/
theorem duplicate_page_ids_collide :
    (match chunk_pages (TextChunker.init none none) 1
        [⟨"a", 1, "hello".toList, false⟩, ⟨"a", 1, "world".toList, false⟩] with
     | .ok cs => cs.map TextChunk.chunk_id
     | _ => []) = [generate_chunk_id "a" 1 0, generate_chunk_id "a" 1 0] ∧
    (⟨"a", 1, "hello".toList, false⟩ : DocumentPage) ≠ ⟨"a", 1, "world".toList, false⟩ ∧
    ¬ ([generate_chunk_id "a" 1 0, generate_chunk_id "a" 1 0].Nodup) := by
  refine ⟨rfl, by decide, by simp⟩

/-- C8 amended: for every configuration, fuel and list of pages whose
`(document_name, page_number)` pairs are pairwise distinct and whose page
numbers are nonnegative, the chunk ids of a successful run are pairwise
distinct; and each id is the pure function `generate_chunk_id` of the
chunk's document name, page number and an index, so re-chunking identical
input yields identical ids. -/
theorem chunk_ids_nodup_of_distinct_pages
    (cfg : TextChunker) (fuel : Nat) (pages : List DocumentPage) (cs : List TextChunk)
    (hpair : pages.Pairwise fun a b =>
      (a.document_name, a.page_number) ≠ (b.document_name, b.page_number))
    (hpos : ∀ pg ∈ pages, 0 ≤ pg.page_number)
    (h : chunk_pages cfg fuel pages = .ok cs) :
    (cs.map TextChunk.chunk_id).Nodup ∧
    ∀ c ∈ cs, ∃ k, c.chunk_id = generate_chunk_id c.document_name c.page_number k := by
  obtain ⟨hn, hform⟩ := chunk_pages_chunks cfg fuel pages cs hpair hpos h
  refine ⟨hn, ?_⟩
  intro c hc
  obtain ⟨pg, -, k, h1, h2, h3⟩ := hform c hc
  exact ⟨k, by rw [h1, h2, h3]⟩

/-- Witness for the amended C8: two pages with distinct
`(document_name, page_number)` pairs chunk to chunks with pairwise
distinct ids. -/
theorem chunk_ids_nodup_of_distinct_pages_witness :
    (([⟨"a", 1, generate_chunk_id "a" 1 0, "hello".toList, false⟩,
       ⟨"b", 2, generate_chunk_id "b" 2 0, "world".toList, false⟩] : List TextChunk).map
      TextChunk.chunk_id).Nodup := by
  have h := chunk_ids_nodup_of_distinct_pages (TextChunker.init none none) 1
      [⟨"a", 1, "hello".toList, false⟩, ⟨"b", 2, "world".toList, false⟩]
      [⟨"a", 1, generate_chunk_id "a" 1 0, "hello".toList, false⟩,
       ⟨"b", 2, generate_chunk_id "b" 2 0, "world".toList, false⟩]
      (by decide) (by decide) rfl
  exact h.1

end Rag
